import Mathlib

/-!
Verification of the `Detector` training/evaluation orchestrator from
`detector.py` (repository POLARBEARWYY/Detection).

The embedding models the pure control logic of the class:

* `Detector.__init__` (lines 19-55): scale computation, checkpoint-directory
  creation, device branching (`self.net` assignment), optimizer dispatch.
* `Detector.train` (lines 60-109): per-batch operation order, the periodic
  validation / checkpoint decision with its `best_score >= score` comparison
  and the Python local variable `score` that is only assigned under
  `if writer:`.
* `Detector.test` (lines 111-149): batch fetching with the 40-sample cap,
  the `total_loss` accumulator (which the source initializes and divides but
  never adds to), and the `[:40]` slicing of the returned stacks.
* `Detector.predict` (lines 178-185): `/255` preprocessing, the
  `torch.no_grad()` context, elementwise sigmoid on the predicted heatmap and
  `argmax(dim=1)` on the predicted mask.

Library primitives (the network forward pass, `torch.sigmoid`, the loss
criterion) are external collaborators and are abstracted as function
parameters; tensors are modelled at sample granularity (a batch is a list of
abstract per-sample values, a per-sample heatmap is a list of cells, a
per-sample mask prediction is a list of per-cell class-score lists).
Float arithmetic is modelled by exact arithmetic: `ℚ` for scores and tensor
entries, with the scalar type of `__init__` kept polymorphic so that
`scale = cov * math.pi * 2` can be stated over `ℝ`.  The filesystem seen by
`os.path.exists` / `os.mkdir` is a list of existing directory paths (path
hierarchy is not modelled; the source only ever creates a single level).
-/

namespace Detection

/-- Python exception kinds the modelled code can raise. -/
inductive PyErr where
  | nameError
  | attributeError
  deriving DecidableEq, Repr

/-- The two optimizer variants `Detector.__init__` can construct
(lines 46-51 of `detector.py`). -/
inductive OptChoice where
  | sgd
  | adam
  deriving DecidableEq, Repr

/-- Optimizer dispatch of `Detector.__init__` (lines 46-53): `'sgd'` and
`'adam'` succeed, any other name raises
`Exception('Optimizer {} Not Exists'.format(optimizer))`. -/
def chooseOptimizer (name : String) : Except String OptChoice :=
  if name = "sgd" then .ok .sgd
  else if name = "adam" then .ok .adam
  else .error ("Optimizer " ++ name ++ " Not Exists")

/-- State produced by running `Detector.__init__` (lines 19-55), over an
abstract scalar type `R` standing for Python floats. -/
structure InitState (R : Type) where
  /-- `self.scale = cov * math.pi * 2` (line 31); also the argument of
  `CountLoss` (line 55). -/
  scale : R
  /-- Directories existing after the `os.path.exists` / `os.mkdir` check
  (lines 35-36). -/
  fs : List String
  /-- Whether the attribute `self.net` was assigned (lines 39-44): skipped
  when `devices` is empty. -/
  netAssigned : Bool
  /-- Whether `self.net` wraps the model in `nn.DataParallel` (line 44),
  which happens only when `len(devices) > 1`. -/
  dataParallel : Bool
  /-- The optimizer stored in `self.opt`, `none` when dispatch raised. -/
  opt : Option OptChoice
  /-- The exception propagating out of `__init__`, if any. -/
  err : Option String

/-- `Detector.__init__` (lines 19-55 of `detector.py`).  `pi` stands for
`math.pi`; `fs` is the set of directories existing when the constructor
runs.  The directory creation and the `self.net` branching happen before the
optimizer dispatch, so their effects persist even when the dispatch raises. -/
def detectorInit {R : Type} [CommRing R] (pi cov : R) (optimizer : String)
    (checkpointDir : String) (devices : List Nat) (fs : List String) :
    InitState R :=
  let scale := cov * pi * 2
  let fs' := if checkpointDir ∈ fs then fs else fs ++ [checkpointDir]
  let netAssigned := decide (devices.length ≠ 0)
  let dataParallel := decide (1 < devices.length)
  match chooseOptimizer optimizer with
  | .ok o =>
      { scale := scale, fs := fs', netAssigned := netAssigned,
        dataParallel := dataParallel, opt := some o, err := none }
  | .error m =>
      { scale := scale, fs := fs', netAssigned := netAssigned,
        dataParallel := dataParallel, opt := none, err := some m }

/-! ### The training loop (`Detector.train`, lines 60-109) -/

/-- Mutable state of `Detector.train` that the checkpoint logic touches.
`score` models the Python local variable `score`, which is unbound
(`none`) until the statement `score = total_loss` (line 93) inside the
`if writer:` branch runs.  `saves` records each `save_model` call (line 109)
as the pair `(epoch, score written to best_score)`.  `err` models an
exception having aborted the loop. -/
structure TrainState where
  err : Option PyErr
  bestScore : ℚ
  score : Option ℚ
  saves : List (Nat × ℚ)
  deriving DecidableEq, Repr

/-- One iteration of the epoch loop of `Detector.train` (lines 65-109).
`netAssigned` tells whether `self.net` exists (line 67 `self.net.train()`
raises `AttributeError` otherwise); `writer` tells whether a metrics writer
was passed; `testScore` gives the `total_loss` that `self.test()` (line 89)
returns at each epoch.  The per-batch work (lines 68-85) is modelled
separately by `trainTrace`; it touches none of this state.  Once an
exception is recorded, later iterations do nothing (the loop has been
aborted). -/
def epochStep (netAssigned writer : Bool) (interval : Nat) (testScore : Nat → ℚ)
    (s : TrainState) (epoch : Nat) : TrainState :=
  if s.err.isSome then s
  else if !netAssigned then { s with err := some .attributeError }
  else if epoch % interval == 0 then
    let sc := testScore epoch
    let s := if writer then { s with score := some sc } else s
    match s.score with
    | none => { s with err := some .nameError }
    | some v =>
        if s.bestScore ≥ v then
          { s with bestScore := v, saves := s.saves ++ [(epoch, v)] }
        else s
  else s

/-- `Detector.train(max_epoch, writer, epoch_size)` restricted to the state
of `TrainState`: epochs `0 … maxEpoch-1` (line 65), with
`best_score = 1000` (line 63) and the local `score` initially unbound. -/
def trainRun (netAssigned writer : Bool) (interval maxEpoch : Nat)
    (testScore : Nat → ℚ) : TrainState :=
  (List.range maxEpoch).foldl (epochStep netAssigned writer interval testScore)
    { err := none, bestScore := 1000, score := none, saves := [] }

/-! ### Validation (`Detector.test`, lines 111-149) -/

/-- One batch yielded by the test loader: the image batch (one abstract `ℚ`
per sample), and the ground-truth heatmap and mask stacks (per sample, a
list of cells). -/
structure TestBatch where
  img : List ℚ
  hm : List (List ℚ)
  mask : List (List ℚ)
  deriving DecidableEq, Repr

/-- The batch-fetch loop of `Detector.test` (lines 121-142): each batch is
consumed, `count += img.shape[0]`, and the loop breaks once `count >= 40`.
Returns the list of batches the loop consumed. -/
def fetchBatches : List TestBatch → Nat → List TestBatch
  | [], _ => []
  | b :: bs, count =>
      if 40 ≤ count + b.img.length then [b]
      else b :: fetchBatches bs (count + b.img.length)

/-- What `Detector.test` returns (line 149). -/
structure TestResult where
  /-- `total_loss` after `total_loss /= batch_idx + 1` (line 148). -/
  score : ℚ
  imgs : List ℚ
  predHms : List (List ℚ)
  gtHms : List (List ℚ)
  predMasks : List (List (List ℚ))
  gtMasks : List (List ℚ)

/-- `Detector.test` (lines 111-149).  `net` is the abstract forward pass
(per input batch: per-sample heatmap cells and per-sample per-cell class
scores); `σ` is `torch.sigmoid` applied on line 129.  The loop appends each
consumed batch to the five stacks, which `torch.cat` then concatenates —
modelled as flattening over `fetchBatches`.  `total_loss` is initialized to
`0` (line 119) and divided by `batch_idx + 1` (line 148) but no statement of
the loop body ever adds to it.  On an empty loader the `torch.cat([])` calls
raise, modelled as `none`. -/
def testRun (σ : ℚ → ℚ) (net : List ℚ → List (List ℚ) × List (List (List ℚ)))
    (batches : List TestBatch) : Option TestResult :=
  let fetched := fetchBatches batches 0
  if fetched.isEmpty then none
  else
    let totalLoss : ℚ := 0
    some
      { score := totalLoss / (fetched.length : ℚ)
        imgs := (fetched.map (fun b => b.img)).flatten.take 40
        predHms :=
          (fetched.map (fun b => ((net b.img).1).map (fun s => s.map σ))).flatten.take 40
        gtHms := (fetched.map (fun b => b.hm)).flatten.take 40
        predMasks := (fetched.map (fun b => (net b.img).2)).flatten.take 40
        gtMasks := (fetched.map (fun b => b.mask)).flatten.take 40 }

/-- From the spec's words (§4.3 "computes an aggregate validation score
(mean loss …)"): the mean of the per-batch losses over the accumulated
validation batches, `lossOf` standing for the criterion applied to the
batch.  Used only to compare against what `testRun` actually returns. -/
def specMeanLoss (lossOf : TestBatch → ℚ) (batches : List TestBatch) : ℚ :=
  let fetched := fetchBatches batches 0
  (fetched.map lossOf).sum / (fetched.length : ℚ)

/-! ### Operation order of the batch loop (`Detector.train`, lines 65-85) -/

/-- Observable operations of the training loop, in source order. -/
inductive TrainEvent where
  /-- `self.net.train()` (line 67). -/
  | netTrainMode
  /-- `self.reset_grad()`, i.e. `self.opt.zero_grad()` (lines 57-58, 74). -/
  | zeroGrad
  /-- `self.net(img)` (line 75). -/
  | forward
  /-- `self.get_loss(...)` (line 76). -/
  | computeLoss
  /-- `loss.backward()` (line 77). -/
  | backward
  /-- `self.opt.step()` (line 78). -/
  | optStep
  /-- the two `writer.add_scalar` calls (lines 79-83). -/
  | writerLog
  /-- `scheduler.step(step)` (line 85). -/
  | schedStep
  /-- the validation block (lines 87-109). -/
  | validate
  deriving DecidableEq, Repr

/-- The operations one iteration of the batch loop performs, in source order
(lines 74-85): zero gradients, forward pass, loss, backward pass, optimizer
step, optional writer logging, then one scheduler step. -/
def batchTrace (writer : Bool) : List TrainEvent :=
  [.zeroGrad, .forward, .computeLoss, .backward, .optStep]
    ++ (if writer then [.writerLog] else []) ++ [.schedStep]

/-- The batch loop (line 68) over `n` batches: iterations in order. -/
def batchLoopTrace (writer : Bool) : Nat → List TrainEvent
  | 0 => []
  | n + 1 => batchLoopTrace writer n ++ batchTrace writer

/-- Trace of `Detector.train` over `maxEpoch` epochs of `nBatches` batches
each (lines 65-109): each epoch sets train mode, runs the batch loop, then
validates when `epoch % interval == 0`. -/
def trainTrace (writer : Bool) (interval nBatches : Nat) : Nat → List TrainEvent
  | 0 => []
  | e + 1 =>
      trainTrace writer interval nBatches e
        ++ [.netTrainMode] ++ batchLoopTrace writer nBatches
        ++ (if e % interval == 0 then [.validate] else [])

/-- The six operations the claim about the batch loop names. -/
def isCoreOp : TrainEvent → Bool
  | .zeroGrad | .forward | .computeLoss | .backward | .optStep | .schedStep => true
  | _ => false

/-! ### Inference (`Detector.predict`, lines 178-185) -/

/-- `torch.argmax` along the class dimension
(`pred_mask.argmax(dim=1)`, line 184): the index of the first maximal entry
of a per-cell class-score list (`torch.argmax` returns the first maximal
index). -/
def argmaxIdx : List ℚ → Nat
  | [] => 0
  | x :: xs => if xs.all (fun y => y ≤ x) then 0 else argmaxIdx xs + 1

/-- A `with torch.no_grad():` block (line 181): the body runs with gradient
tracking off, and the ambient mode `g` is restored afterwards.  The body
returns its value together with the log of gradient modes at each forward
call; `withNoGrad` returns (value, restored mode, log). -/
def withNoGrad {α : Type} (body : Bool → α × List Bool) (g : Bool) :
    α × Bool × List Bool :=
  let (a, log) := body false
  (a, g, log)

/-- A call `self.net(x)` under gradient mode `g`: the abstract forward pass
plus the record that a forward ran under `g`. -/
def forwardPass (net : List ℚ → List (List ℚ) × List (List (List ℚ)))
    (x : List ℚ) (g : Bool) : (List (List ℚ) × List (List (List ℚ))) × List Bool :=
  (net x, [g])

/-- `Detector.predict(img)` (lines 178-185), started in ambient gradient
mode `g`.  Line 179 scales the raw pixels by `1/255` (the permute and device
moves do not change values); line 181 opens `torch.no_grad()`; line 182 runs
the forward pass; line 183 applies `torch.sigmoid` (`σ`) elementwise to the
predicted heatmap; line 184 takes the per-cell argmax of the predicted mask
scores.  Returns ((heatmap, mask), gradient mode after the call, gradient
modes of the forward calls made). -/
def predictRun (σ : ℚ → ℚ) (net : List ℚ → List (List ℚ) × List (List (List ℚ)))
    (img : List ℚ) (g : Bool) :
    (List (List ℚ) × List (List Nat)) × Bool × List Bool :=
  let x := img.map (fun p => p / 255)
  withNoGrad (fun g' =>
    let (out, log) := forwardPass net x g'
    ((out.1.map (fun s => s.map σ), out.2.map (fun s => s.map argmaxIdx)), log)) g

/-- The attribute access `self.net` performed at the start of `train`
(line 67), `test` (line 112) and `predict` (line 180): raises
`AttributeError` when `__init__` never assigned the attribute. -/
def getNet (netAssigned : Bool) : Except PyErr Unit :=
  if netAssigned then .ok () else .error .attributeError

/-- `Detector.test` as a method call on a constructed detector: the first
statement `self.net.eval()` (line 112) fails when `self.net` was never
assigned. -/
def testMethod (st : InitState ℚ) (σ : ℚ → ℚ)
    (net : List ℚ → List (List ℚ) × List (List (List ℚ)))
    (batches : List TestBatch) : Except PyErr (Option TestResult) :=
  match getNet st.netAssigned with
  | .error e => .error e
  | .ok _ => .ok (testRun σ net batches)

/-- `Detector.predict` as a method call on a constructed detector:
`self.net.eval()` (line 180) fails when `self.net` was never assigned. -/
def predictMethod (st : InitState ℚ) (σ : ℚ → ℚ)
    (net : List ℚ → List (List ℚ) × List (List (List ℚ)))
    (img : List ℚ) (g : Bool) :
    Except PyErr ((List (List ℚ) × List (List Nat)) × Bool × List Bool) :=
  match getNet st.netAssigned with
  | .error e => .error e
  | .ok _ => .ok (predictRun σ net img g)

/-- `Detector.train` as a method call on a constructed detector: the
scheduler construction and seeding (lines 61-62) touch only `self.opt`, and
`self.net` is first read inside the epoch loop (line 67), so the
`AttributeError` surfaces only if at least one epoch runs — `epochStep`
raises it through the `netAssigned` flag. -/
def trainMethod (st : InitState ℚ) (writer : Bool) (interval maxEpoch : Nat)
    (testScore : Nat → ℚ) : TrainState :=
  trainRun st.netAssigned writer interval maxEpoch testScore

/-! ### Helper lemmas -/

lemma epochStep_frozen (na w : Bool) (i : Nat) (f : Nat → ℚ) (s : TrainState)
    (e : Nat) (h : s.err.isSome) : epochStep na w i f s e = s := by
  simp [epochStep, h]

lemma foldl_epochStep_frozen (na w : Bool) (i : Nat) (f : Nat → ℚ)
    (l : List Nat) (s : TrainState) (h : s.err.isSome) :
    l.foldl (epochStep na w i f) s = s := by
  induction l with
  | nil => rfl
  | cons e l ih => rw [List.foldl_cons, epochStep_frozen na w i f s e h]; exact ih

lemma epochStep_skip (w : Bool) (i : Nat) (f : Nat → ℚ) (s : TrainState) (e : Nat)
    (h : (e % i == 0) = false) : epochStep true w i f s e = s := by
  by_cases hs : s.err.isSome
  · simp [epochStep, hs]
  · simp [epochStep, hs, h]

lemma foldl_epochStep_filter (w : Bool) (i : Nat) (f : Nat → ℚ)
    (l : List Nat) (s : TrainState) :
    l.foldl (epochStep true w i f) s
      = (l.filter (fun e => e % i == 0)).foldl (epochStep true w i f) s := by
  induction l generalizing s with
  | nil => rfl
  | cons e l ih =>
      by_cases he : (e % i == 0) = true
      · rw [List.foldl_cons]
        have hf : (e :: l).filter (fun e => e % i == 0)
            = e :: l.filter (fun e => e % i == 0) := by
          simp [List.filter_cons, he]
        rw [hf, List.foldl_cons]
        exact ih _
      · have he' : (e % i == 0) = false := by simpa using he
        rw [List.foldl_cons, epochStep_skip w i f s e he']
        have hf : (e :: l).filter (fun e => e % i == 0)
            = l.filter (fun e => e % i == 0) := by
          simp [List.filter_cons, he']
        rw [hf]
        exact ih _

lemma foldl_min_const (l : List ℚ) (a : ℚ) (h : ∀ x ∈ l, a ≤ x) :
    l.foldl min a = a := by
  induction l with
  | nil => rfl
  | cons x l ih =>
      rw [List.foldl_cons, min_eq_left (h x (List.mem_cons_self x l))]
      exact ih (fun y hy => h y (List.mem_cons_of_mem x hy))

/-- Behaviour of the validation/checkpoint part of the epoch loop with a
writer and an assigned network, over any list of epochs that all pass the
`epoch % interval == 0` test: no exception, `best_score` becomes the running
minimum, the last `save_model` call (if the premise of the third part holds)
carries the minimum score, and no save happens at all when every score
exceeds the incoming `best_score`. -/
lemma trainFold_spec (i : Nat) (f : Nat → ℚ) :
    ∀ (es : List Nat), (∀ e ∈ es, e % i == 0) →
    ∀ (b : ℚ) (sc : Option ℚ) (saves : List (Nat × ℚ)),
      (es.foldl (epochStep true true i f) ⟨none, b, sc, saves⟩).err = none
      ∧ (es.foldl (epochStep true true i f) ⟨none, b, sc, saves⟩).bestScore
          = (es.map f).foldl min b
      ∧ ((∃ e ∈ es, f e ≤ b) →
          ∃ p, (es.foldl (epochStep true true i f) ⟨none, b, sc, saves⟩).saves.getLast?
              = some p
            ∧ p.2 = (es.map f).foldl min b)
      ∧ ((∀ e ∈ es, ¬ f e ≤ b) →
          (es.foldl (epochStep true true i f) ⟨none, b, sc, saves⟩).saves = saves) := by
  intro es
  induction es with
  | nil =>
      intro _ b sc saves
      refine ⟨rfl, rfl, ?_, fun _ => rfl⟩
      rintro ⟨e, he, -⟩
      cases he
  | cons e es ih =>
      intro hall b sc saves
      have he : (e % i == 0) = true := hall e (List.mem_cons_self e es)
      have hall' : ∀ e' ∈ es, e' % i == 0 :=
        fun e' h' => hall e' (List.mem_cons_of_mem e h')
      by_cases hbe : f e ≤ b
      · have hstep : epochStep true true i f ⟨none, b, sc, saves⟩ e
            = ⟨none, f e, some (f e), saves ++ [(e, f e)]⟩ := by
          simp [epochStep, he, ge_iff_le, hbe]
        rw [List.foldl_cons, hstep]
        obtain ⟨ih1, ih2, ih3, ih4⟩ := ih hall' (f e) (some (f e)) (saves ++ [(e, f e)])
        have hmin : ((e :: es).map f).foldl min b = (es.map f).foldl min (f e) := by
          rw [List.map_cons, List.foldl_cons, min_eq_right hbe]
        refine ⟨ih1, by rw [hmin]; exact ih2, ?_, ?_⟩
        · intro _
          by_cases hex : ∃ e' ∈ es, f e' ≤ f e
          · obtain ⟨p, hp1, hp2⟩ := ih3 hex
            exact ⟨p, hp1, by rw [hmin]; exact hp2⟩
          · push_neg at hex
            refine ⟨(e, f e), ?_, ?_⟩
            · rw [ih4 (fun e' h' => not_le_of_lt (hex e' h'))]
              exact List.getLast?_concat _
            · rw [hmin]
              have : (es.map f).foldl min (f e) = f e := by
                refine foldl_min_const _ _ ?_
                rintro x hx
                obtain ⟨e', he', rfl⟩ := List.mem_map.mp hx
                exact le_of_lt (hex e' he')
              rw [this]
        · intro hnone
          exact absurd hbe (hnone e (List.mem_cons_self e es))
      · have hstep : epochStep true true i f ⟨none, b, sc, saves⟩ e
            = ⟨none, b, some (f e), saves⟩ := by
          simp [epochStep, he, ge_iff_le, hbe]
        rw [List.foldl_cons, hstep]
        obtain ⟨ih1, ih2, ih3, ih4⟩ := ih hall' b (some (f e)) saves
        have hb : b ≤ f e := le_of_not_le hbe
        have hmin : ((e :: es).map f).foldl min b = (es.map f).foldl min b := by
          rw [List.map_cons, List.foldl_cons, min_eq_left hb]
        refine ⟨ih1, by rw [hmin]; exact ih2, ?_, ?_⟩
        · rintro ⟨e', he', hle⟩
          rcases List.mem_cons.mp he' with rfl | h'
          · exact absurd hle hbe
          · obtain ⟨p, hp1, hp2⟩ := ih3 ⟨e', h', hle⟩
            exact ⟨p, hp1, by rw [hmin]; exact hp2⟩
        · intro hnone
          exact ih4 (fun e' h' => hnone e' (List.mem_cons_of_mem e h'))

/-! ### Claims -/

/-- C1 (counterexample): the claim "a checkpoint is persisted exactly when
the validation score improves, so the last-saved checkpoint corresponds to
the evaluation with the minimum score seen so far" fails on the code.  With
a writer, interval 1 and one epoch whose validation score is `2000`, the run
completes without error, the evaluation happened, yet no checkpoint is ever
persisted, because `best_score` starts at the magic value `1000`
(line 63) and `2000 > 1000`; so no saved checkpoint corresponds to the best
score seen.  Moreover with two epochs both scoring `5`, the second, non-
improving (tying) evaluation persists a checkpoint again, because the
comparison on line 107 is `best_score >= score`, not `>`. -/
theorem checkpoint_claim_counterexample :
    (trainRun true true 1 1 (fun _ => 2000)).saves = []
    ∧ (trainRun true true 1 1 (fun _ => 2000)).err = none
    ∧ (trainRun true true 1 2 (fun _ => 5)).saves = [(0, 5), (1, 5)] := by
  decide

/-- C1 (amended): with a writer, a checkpoint is persisted exactly when the
validation score is `≤` the best seen so far, where the best is initialized
to `1000` (so no checkpoint at all is saved while every score exceeds
`1000`, and a score tying the best re-saves).  Consequently, whenever some
evaluated epoch (an epoch divisible by the interval) has score `≤ 1000`,
the last-saved checkpoint carries the minimum score over all evaluations
performed. -/
theorem checkpoint_tracks_min (f : Nat → ℚ) (interval maxEpoch : Nat)
    (hpos : 0 < interval)
    (h : ∃ i < maxEpoch, i % interval = 0 ∧ f i ≤ 1000) :
    ∃ p, (trainRun true true interval maxEpoch f).saves.getLast? = some p
      ∧ p.2 = (((List.range maxEpoch).filter (fun e => e % interval == 0)).map f).foldl
          min 1000 := by
  unfold trainRun
  rw [foldl_epochStep_filter]
  have hall : ∀ e ∈ (List.range maxEpoch).filter (fun e => e % interval == 0),
      e % interval == 0 := fun e he => (List.mem_filter.mp he).2
  obtain ⟨-, -, h3, -⟩ := trainFold_spec interval f _ hall 1000 none []
  apply h3
  obtain ⟨i, hi, hmod, hle⟩ := h
  exact ⟨i, List.mem_filter.mpr ⟨List.mem_range.mpr hi, by simp [hmod]⟩, hle⟩

/-- Witness for C1: one epoch scoring `5` saves once, with score `5`. -/
theorem checkpoint_tracks_min_witness :
    ∃ p, (trainRun true true 1 1 (fun _ => 5)).saves.getLast? = some p
      ∧ p.2 = (((List.range 1).filter (fun e => e % 1 == 0)).map
          (fun _ => (5 : ℚ))).foldl min 1000 :=
  checkpoint_tracks_min (fun _ => 5) 1 1 (by decide)
    ⟨0, by decide, by decide, by decide⟩

/-- C9: calling `Detector.train` with `writer=None` makes the checkpoint
decision on line 107 read the local variable `score`, which only the
`if writer:` branch (line 93) ever assigns, so the first validation interval
(epoch 0, since `0 % interval == 0`) raises `NameError` and no checkpoint
decision ever completes. -/
theorem train_without_writer_name_error (interval maxEpoch : Nat) (f : Nat → ℚ)
    (h1 : 0 < interval) (h2 : 0 < maxEpoch) :
    (trainRun true false interval maxEpoch f).err = some .nameError
    ∧ (trainRun true false interval maxEpoch f).saves = [] := by
  obtain ⟨m, rfl⟩ : ∃ m, maxEpoch = m + 1 :=
    ⟨maxEpoch - 1, (Nat.succ_pred_eq_of_pos h2).symm⟩
  unfold trainRun
  rw [List.range_succ_eq_map, List.foldl_cons]
  have hstep : epochStep true false interval f
      ⟨none, 1000, none, []⟩ 0 = ⟨some .nameError, 1000, none, []⟩ := by
    simp [epochStep, Nat.zero_mod]
  rw [hstep, foldl_epochStep_frozen true false interval f
    ((List.range m).map Nat.succ) ⟨some .nameError, 1000, none, []⟩ rfl]
  exact ⟨rfl, rfl⟩

/-- Witness for C9: one epoch, interval 1. -/
theorem train_without_writer_name_error_witness :
    (trainRun true false 1 1 (fun _ => 0)).err = some .nameError
    ∧ (trainRun true false 1 1 (fun _ => 0)).saves = [] :=
  train_without_writer_name_error 1 1 (fun _ => 0) (by decide) (by decide)

/-- C6: constructing a `Detector` with `'sgd'` or `'adam'` succeeds (the
corresponding optimizer is stored and nothing is raised), and any other
optimizer name raises `Exception('Optimizer {name} Not Exists')` — a
descriptive error naming the optimizer — during `__init__`. -/
theorem optimizer_validation (pi cov : ℚ) (name dir : String)
    (devices : List Nat) (fs : List String) :
    ((detectorInit pi cov "sgd" dir devices fs).err = none
      ∧ (detectorInit pi cov "sgd" dir devices fs).opt = some OptChoice.sgd)
    ∧ ((detectorInit pi cov "adam" dir devices fs).err = none
      ∧ (detectorInit pi cov "adam" dir devices fs).opt = some OptChoice.adam)
    ∧ (name ≠ "sgd" → name ≠ "adam" →
        (detectorInit pi cov name dir devices fs).err
            = some ("Optimizer " ++ name ++ " Not Exists")
          ∧ (detectorInit pi cov name dir devices fs).opt = none) := by
  refine ⟨⟨rfl, rfl⟩, ⟨rfl, rfl⟩, fun h1 h2 => ?_⟩
  have hd : chooseOptimizer name = .error ("Optimizer " ++ name ++ " Not Exists") := by
    simp [chooseOptimizer, h1, h2]
  exact ⟨by simp [detectorInit, hd], by simp [detectorInit, hd]⟩

/-- Witness for C6: the name `'rmsprop'` is rejected with the message
naming it. -/
theorem optimizer_validation_witness :
    (detectorInit (R := ℚ) 3 1 "rmsprop" "saved_models" [0] []).err
        = some ("Optimizer rmsprop Not Exists")
      ∧ (detectorInit (R := ℚ) 3 1 "rmsprop" "saved_models" [0] []).opt = none :=
  (optimizer_validation 3 1 "rmsprop" "saved_models" [0] []).2.2
    (by decide) (by decide)

/-- C7: if the checkpoint directory is absent when the `Detector` is
constructed, `__init__` creates it (lines 35-36) and raises nothing for it;
if it is already present, the filesystem is left unchanged.  Either way the
directory exists afterwards, and a valid optimizer name means `__init__`
raises nothing at all. -/
theorem checkpoint_dir_creation (pi cov : ℚ) (name dir : String)
    (devices : List Nat) (fs : List String) :
    (dir ∉ fs → (detectorInit pi cov name dir devices fs).fs = fs ++ [dir])
    ∧ (dir ∈ fs → (detectorInit pi cov name dir devices fs).fs = fs)
    ∧ dir ∈ (detectorInit pi cov name dir devices fs).fs
    ∧ (∀ o, chooseOptimizer name = .ok o →
        (detectorInit pi cov name dir devices fs).err = none) := by
  have hfs : (detectorInit pi cov name dir devices fs).fs
      = if dir ∈ fs then fs else fs ++ [dir] := by
    unfold detectorInit
    cases chooseOptimizer name <;> rfl
  refine ⟨fun h => by rw [hfs, if_neg h], fun h => by rw [hfs, if_pos h], ?_, ?_⟩
  · rw [hfs]
    by_cases h : dir ∈ fs
    · rw [if_pos h]; exact h
    · rw [if_neg h]
      exact List.mem_append.mpr (Or.inr (by simp))
  · intro o ho
    simp [detectorInit, ho]

/-- Witness for C7: a missing directory is appended, an existing one is
left alone. -/
theorem checkpoint_dir_creation_witness :
    (detectorInit (R := ℚ) 3 1 "adam" "saved_models" [0] ["data"]).fs
        = ["data"] ++ ["saved_models"]
      ∧ (detectorInit (R := ℚ) 3 1 "adam" "other" [0] ["other"]).fs = ["other"] :=
  ⟨(checkpoint_dir_creation 3 1 "adam" "saved_models" [0] ["data"]).1 (by decide),
   (checkpoint_dir_creation 3 1 "adam" "other" [0] ["other"]).2.1 (by decide)⟩

/-- C8: the spatial decay factor stored in `self.scale` (line 31) and
passed to `CountLoss` (line 55) equals `cov * 2π`, for every value of the
parameter `cov`. -/
theorem loss_scale_eq (cov : ℝ) (name dir : String) (devices : List Nat)
    (fs : List String) :
    (detectorInit Real.pi cov name dir devices fs).scale = cov * (2 * Real.pi) := by
  have hs : (detectorInit Real.pi cov name dir devices fs).scale
      = cov * Real.pi * 2 := by
    unfold detectorInit
    cases chooseOptimizer name <;> rfl
  rw [hs]; ring

lemma fetchBatches_ne_nil (bs : List TestBatch) (c : Nat) (h : bs ≠ []) :
    fetchBatches bs c ≠ [] := by
  cases bs with
  | nil => exact absurd rfl h
  | cons b bs =>
      unfold fetchBatches
      by_cases hc : 40 ≤ c + b.img.length <;> simp [hc]

lemma fetchBatches_take (bs : List TestBatch) (c : Nat) :
    fetchBatches bs c = bs.take (fetchBatches bs c).length := by
  induction bs generalizing c with
  | nil => rfl
  | cons b bs ih =>
      unfold fetchBatches
      by_cases hc : 40 ≤ c + b.img.length
      · rw [if_pos hc]; rfl
      · rw [if_neg hc, List.length_cons, List.take_succ_cons]
        exact congrArg (List.cons b) (ih (c + b.img.length))

lemma fetchBatches_prefix_lt (bs : List TestBatch) (c j : Nat)
    (h : j + 1 < (fetchBatches bs c).length) :
    c + (((fetchBatches bs c).take (j + 1)).map (fun b => b.img.length)).sum
      < 40 := by
  induction bs generalizing c j with
  | nil => simp [fetchBatches] at h
  | cons b bs ih =>
      unfold fetchBatches at h ⊢
      by_cases hc : 40 ≤ c + b.img.length
      · rw [if_pos hc] at h
        simp at h
      · rw [if_neg hc] at h ⊢
        cases j with
        | zero =>
            simp only [List.take_succ_cons, List.take_zero, List.map_cons,
              List.map_nil, List.sum_cons, List.sum_nil]
            omega
        | succ k =>
            rw [List.length_cons] at h
            have h' : k + 1 < (fetchBatches bs (c + b.img.length)).length := by
              omega
            have hk := ih (c + b.img.length) k h'
            rw [List.take_succ_cons, List.map_cons, List.sum_cons]
            omega

lemma fetchBatches_complete (bs : List TestBatch) (c : Nat) :
    fetchBatches bs c = bs
      ∨ 40 ≤ c + ((fetchBatches bs c).map (fun b => b.img.length)).sum := by
  induction bs generalizing c with
  | nil => exact Or.inl rfl
  | cons b bs ih =>
      unfold fetchBatches
      by_cases hc : 40 ≤ c + b.img.length
      · rw [if_pos hc]
        right
        simpa using hc
      · rw [if_neg hc]
        rcases ih (c + b.img.length) with h | h
        · left; rw [h]
        · right
          rw [List.map_cons, List.sum_cons]
          omega

/-- C4: `Detector.test` is bounded.  For every nonempty test loader it
succeeds, every returned stack has at most 40 samples (the `[:40]` slices,
line 149), the consumed batches form a prefix of the loader, a further
batch is fetched only while the accumulated sample count is still below 40
(lines 140-142), and the loop stops either because the loader is exhausted
or because at least 40 samples were accumulated. -/
theorem test_bounded (σ : ℚ → ℚ)
    (net : List ℚ → List (List ℚ) × List (List (List ℚ)))
    (batches : List TestBatch) (h : batches ≠ []) :
    ∃ r, testRun σ net batches = some r
      ∧ r.imgs.length ≤ 40 ∧ r.predHms.length ≤ 40 ∧ r.gtHms.length ≤ 40
      ∧ r.predMasks.length ≤ 40 ∧ r.gtMasks.length ≤ 40
      ∧ fetchBatches batches 0 = batches.take (fetchBatches batches 0).length
      ∧ (∀ j, j + 1 < (fetchBatches batches 0).length →
          (((fetchBatches batches 0).take (j + 1)).map
            (fun b => b.img.length)).sum < 40)
      ∧ (fetchBatches batches 0 = batches
          ∨ 40 ≤ ((fetchBatches batches 0).map (fun b => b.img.length)).sum) := by
  have hne : fetchBatches batches 0 ≠ [] := fetchBatches_ne_nil batches 0 h
  have hemp : (fetchBatches batches 0).isEmpty = false := by
    simpa [List.isEmpty_iff] using hne
  have heq : testRun σ net batches = some
      { score := (0 : ℚ) / ((fetchBatches batches 0).length : ℚ)
        imgs := ((fetchBatches batches 0).map (fun b => b.img)).flatten.take 40
        predHms := ((fetchBatches batches 0).map
          (fun b => ((net b.img).1).map (fun s => s.map σ))).flatten.take 40
        gtHms := ((fetchBatches batches 0).map (fun b => b.hm)).flatten.take 40
        predMasks := ((fetchBatches batches 0).map
          (fun b => (net b.img).2)).flatten.take 40
        gtMasks := ((fetchBatches batches 0).map
          (fun b => b.mask)).flatten.take 40 } := by
    simp only [testRun, hemp, Bool.false_eq_true, if_false]
  refine ⟨_, heq, List.length_take_le _ _, List.length_take_le _ _,
    List.length_take_le _ _, List.length_take_le _ _, List.length_take_le _ _,
    fetchBatches_take batches 0,
    fun j hj => by simpa using fetchBatches_prefix_lt batches 0 j hj,
    by simpa using fetchBatches_complete batches 0⟩

/-- Witness for C4: a one-batch loader with a single sample. -/
theorem test_bounded_witness :
    ∃ r, testRun id (fun _ => ([], [])) [⟨[1], [], []⟩] = some r
      ∧ r.imgs.length ≤ 40 ∧ r.predHms.length ≤ 40 ∧ r.gtHms.length ≤ 40
      ∧ r.predMasks.length ≤ 40 ∧ r.gtMasks.length ≤ 40
      ∧ fetchBatches [⟨[1], [], []⟩] 0
          = List.take (fetchBatches [⟨[1], [], []⟩] 0).length [⟨[1], [], []⟩]
      ∧ (∀ j, j + 1 < (fetchBatches [⟨[1], [], []⟩] 0).length →
          (((fetchBatches [⟨[1], [], []⟩] 0).take (j + 1)).map
            (fun b => b.img.length)).sum < 40)
      ∧ (fetchBatches [⟨[1], [], []⟩] 0 = [⟨[1], [], []⟩]
          ∨ 40 ≤ ((fetchBatches [⟨[1], [], []⟩] 0).map
              (fun b => b.img.length)).sum) :=
  test_bounded id (fun _ => ([], [])) [⟨[1], [], []⟩] (by decide)

/-- C2 (code bug): `Detector.test` is supposed to return the mean of the
per-batch losses as its aggregate score, but the source initializes
`total_loss = 0` (line 119), never adds any per-batch loss to it inside the
loop, and divides by `batch_idx + 1` at the end (line 148) — so the
returned score is always `0`.  Here a loader whose single 40-sample batch
has criterion loss `7` yields score `0`, while the spec-mandated mean is
`7`. -/
theorem test_score_ignores_losses :
    Option.map TestResult.score
        (testRun id (fun _ => ([], [])) [⟨List.replicate 40 0, [], []⟩]) = some 0
    ∧ specMeanLoss (fun _ => 7) [⟨List.replicate 40 0, [], []⟩] = 7
    ∧ ¬ (some (7 : ℚ) = some (0 : ℚ)) := by
  have h1 : fetchBatches [⟨List.replicate 40 0, [], []⟩] 0
      = [⟨List.replicate 40 0, [], []⟩] := rfl
  refine ⟨?_, ?_, by norm_num⟩
  · simp only [testRun, h1]
    norm_num
  · simp only [specMeanLoss, h1]
    norm_num

lemma flatten_replicate_comm {α : Type} (l : List α) (n : Nat) :
    (List.replicate n l).flatten ++ l = l ++ (List.replicate n l).flatten := by
  induction n with
  | zero => simp
  | succ n ih =>
      rw [List.replicate_succ, List.flatten_cons, List.append_assoc, ih]

lemma batchLoopTrace_eq (w : Bool) (n : Nat) :
    batchLoopTrace w n = (List.replicate n (batchTrace w)).flatten := by
  induction n with
  | zero => rfl
  | succ n ih =>
      rw [batchLoopTrace, ih, List.replicate_succ, List.flatten_cons]
      exact flatten_replicate_comm (batchTrace w) n

lemma trainTrace_segment (w : Bool) (i nB : Nat) (e m : Nat) (h : e < m) :
    ∃ post, trainTrace w i nB m
      = trainTrace w i nB e ++ [TrainEvent.netTrainMode] ++ batchLoopTrace w nB
        ++ (if e % i == 0 then [TrainEvent.validate] else []) ++ post := by
  induction m with
  | zero => omega
  | succ m ih =>
      by_cases hem : e = m
      · subst hem
        exact ⟨[], by simp [trainTrace]⟩
      · obtain ⟨post, hp⟩ := ih (by omega)
        refine ⟨post ++ ([TrainEvent.netTrainMode] ++ batchLoopTrace w nB
          ++ (if m % i == 0 then [TrainEvent.validate] else [])), ?_⟩
        rw [trainTrace, hp]
        simp [List.append_assoc]

/-- C3: in every epoch of `Detector.train` and for every batch, the batch
loop performs — in source order — gradient zeroing, the forward pass, the
loss computation, backpropagation, one optimizer step, and then one
learning-rate scheduler step (lines 74-85; only the optional writer logging
sits between the optimizer step and the scheduler step).  Epoch `e`'s
segment of the full trace consists of the mode switch followed by exactly
`nB` identical copies of this batch sequence. -/
theorem batch_op_order (w : Bool) (interval nB maxEpoch e : Nat)
    (h : e < maxEpoch) :
    (∃ post, trainTrace w interval nB maxEpoch
        = trainTrace w interval nB e ++ [TrainEvent.netTrainMode]
          ++ batchLoopTrace w nB
          ++ (if e % interval == 0 then [TrainEvent.validate] else []) ++ post)
    ∧ batchLoopTrace w nB = (List.replicate nB (batchTrace w)).flatten
    ∧ (batchTrace w).filter isCoreOp
        = [TrainEvent.zeroGrad, TrainEvent.forward, TrainEvent.computeLoss,
            TrainEvent.backward, TrainEvent.optStep, TrainEvent.schedStep]
    ∧ (batchTrace w).count TrainEvent.schedStep = 1 := by
  refine ⟨trainTrace_segment w interval nB e maxEpoch h,
    batchLoopTrace_eq w nB, ?_, ?_⟩ <;> cases w <;> rfl

/-- Witness for C3: one epoch of one batch, with a writer. -/
theorem batch_op_order_witness :
    (∃ post, trainTrace true 1 1 1
        = trainTrace true 1 1 0 ++ [TrainEvent.netTrainMode]
          ++ batchLoopTrace true 1
          ++ (if 0 % 1 == 0 then [TrainEvent.validate] else []) ++ post)
    ∧ batchLoopTrace true 1 = (List.replicate 1 (batchTrace true)).flatten
    ∧ (batchTrace true).filter isCoreOp
        = [TrainEvent.zeroGrad, TrainEvent.forward, TrainEvent.computeLoss,
            TrainEvent.backward, TrainEvent.optStep, TrainEvent.schedStep]
    ∧ (batchTrace true).count TrainEvent.schedStep = 1 :=
  batch_op_order true 1 1 1 0 (by decide)

lemma argmaxIdx_lt (l : List ℚ) (h : l ≠ []) : argmaxIdx l < l.length := by
  induction l with
  | nil => exact absurd rfl h
  | cons x xs ih =>
      unfold argmaxIdx
      by_cases hall : (xs.all (fun y => y ≤ x)) = true
      · simp [hall]
      · rw [if_neg hall]
        have hxs : xs ≠ [] := by
          intro he
          subst he
          exact hall rfl
        rw [List.length_cons]
        exact Nat.succ_lt_succ (ih hxs)

lemma argmaxIdx_max (l : List ℚ) : ∀ j, j < l.length →
    l.getD j 0 ≤ l.getD (argmaxIdx l) 0 := by
  induction l with
  | nil => intro j hj; simp at hj
  | cons x xs ih =>
      intro j hj
      unfold argmaxIdx
      by_cases hall : (xs.all (fun y => y ≤ x)) = true
      · rw [if_pos hall]
        simp only [List.all_eq_true, decide_eq_true_eq] at hall
        cases j with
        | zero => simp
        | succ k =>
            have hk : k < xs.length := by simpa using hj
            simp only [List.getD_cons_succ, List.getD_cons_zero]
            rw [List.getD_eq_getElem _ _ hk]
            exact hall _ (List.getElem_mem hk)
      · rw [if_neg hall]
        simp only [List.all_eq_true, decide_eq_true_eq] at hall
        push_neg at hall
        obtain ⟨y, hy, hxy⟩ := hall
        obtain ⟨k, hk, hyk⟩ := List.mem_iff_getElem.mp hy
        have hmax : y ≤ xs.getD (argmaxIdx xs) 0 := by
          have := ih k hk
          rwa [List.getD_eq_getElem _ _ hk, hyk] at this
        cases j with
        | zero =>
            simp only [List.getD_cons_zero, List.getD_cons_succ]
            exact le_of_lt (lt_of_lt_of_le hxy hmax)
        | succ m =>
            simp only [List.getD_cons_succ]
            exact ih m (by simpa using hj)

lemma argmaxIdx_first (l : List ℚ) : ∀ j, j < argmaxIdx l →
    l.getD j 0 < l.getD (argmaxIdx l) 0 := by
  induction l with
  | nil => intro j hj; simp [argmaxIdx] at hj
  | cons x xs ih =>
      intro j hj
      unfold argmaxIdx at hj ⊢
      by_cases hall : (xs.all (fun y => y ≤ x)) = true
      · rw [if_pos hall] at hj
        exact absurd hj (Nat.not_lt_zero j)
      · rw [if_neg hall] at hj ⊢
        have hall' := hall
        simp only [List.all_eq_true, decide_eq_true_eq] at hall'
        push_neg at hall'
        obtain ⟨y, hy, hxy⟩ := hall'
        obtain ⟨k, hk, hyk⟩ := List.mem_iff_getElem.mp hy
        have hmax : y ≤ xs.getD (argmaxIdx xs) 0 := by
          have := argmaxIdx_max xs k hk
          rwa [List.getD_eq_getElem _ _ hk, hyk] at this
        cases j with
        | zero =>
            simp only [List.getD_cons_zero, List.getD_cons_succ]
            exact lt_of_lt_of_le hxy hmax
        | succ m =>
            simp only [List.getD_cons_succ]
            exact ih m (Nat.lt_of_succ_lt_succ hj)

/-- C5: `Detector.predict` scales the raw pixels by `1/255`, runs exactly
one forward pass with gradient tracking disabled (restoring the ambient
gradient mode afterwards), and returns the sigmoid-activated predicted
heatmap together with the per-cell argmax class mask.  The second part
states that `argmaxIdx` really is the (first) argmax: on any nonempty
class-score list it yields an in-range index whose score is maximal and
strictly larger than every earlier score. -/
theorem predict_contract (σ : ℚ → ℚ)
    (net : List ℚ → List (List ℚ) × List (List (List ℚ)))
    (img : List ℚ) (g : Bool) :
    predictRun σ net img g
      = (((net (img.map (fun p => p / 255))).1.map (fun s => s.map σ),
          (net (img.map (fun p => p / 255))).2.map (fun s => s.map argmaxIdx)),
          g, [false])
    ∧ (∀ scores : List ℚ, scores ≠ [] →
        argmaxIdx scores < scores.length
        ∧ (∀ j, j < scores.length →
            scores.getD j 0 ≤ scores.getD (argmaxIdx scores) 0)
        ∧ (∀ j, j < argmaxIdx scores →
            scores.getD j 0 < scores.getD (argmaxIdx scores) 0)) := by
  constructor
  · rfl
  · intro scores hs
    exact ⟨argmaxIdx_lt scores hs, argmaxIdx_max scores, argmaxIdx_first scores⟩

/-- Witness for C5: on the score list `[3, 7]` the mask cell is an in-range
first-maximal index, and a concrete `predict` call evaluates as stated. -/
theorem predict_contract_witness :
    predictRun id (fun x => ([x], [[x]])) [510] true
      = (([[2]], [[0]]), true, [false])
    ∧ argmaxIdx [3, 7] < ([3, 7] : List ℚ).length
    ∧ ([3, 7] : List ℚ).getD 0 0 ≤ [3, 7].getD (argmaxIdx [3, 7]) 0
    ∧ ([3, 7] : List ℚ).getD 0 0 < [3, 7].getD (argmaxIdx [3, 7]) 0 :=
  ⟨by
      have h := (predict_contract id (fun x => ([x], [[x]])) [510] true).1
      simpa [argmaxIdx, show (510 : ℚ) / 255 = 2 by norm_num] using h,
   ((predict_contract id (fun _ => ([], [])) [] true).2 [3, 7] (by decide)).1,
   ((predict_contract id (fun _ => ([], [])) [] true).2 [3, 7] (by decide)).2.1
     0 (by decide),
   ((predict_contract id (fun _ => ([], [])) [] true).2 [3, 7] (by decide)).2.2
     0 (by norm_num [argmaxIdx])⟩

lemma detectorInit_netAssigned (pi cov : ℚ) (name dir : String)
    (devices : List Nat) (fs : List String) :
    (detectorInit pi cov name dir devices fs).netAssigned
      = decide (devices.length ≠ 0) := by
  unfold detectorInit
  cases chooseOptimizer name <;> rfl

lemma detectorInit_dataParallel (pi cov : ℚ) (name dir : String)
    (devices : List Nat) (fs : List String) :
    (detectorInit pi cov name dir devices fs).dataParallel
      = decide (1 < devices.length) := by
  unfold detectorInit
  cases chooseOptimizer name <;> rfl

/-- C10 (counterexample): the claim "every subsequent call to train, test,
or predict fails with an attribute error" is too strong: on a detector
constructed with an empty devices list, `train(0)` iterates over zero
epochs, never reaches `self.net.train()` (line 67), and returns without any
error. -/
theorem net_unassigned_counterexample :
    (detectorInit (R := ℚ) 3 1 "adam" "d" [] []).netAssigned = false
    ∧ (trainMethod (detectorInit (R := ℚ) 3 1 "adam" "d" [] []) true 1 0
        (fun _ => 0)).err = none := ⟨rfl, rfl⟩

/-- C10 (amended): when `devices` is empty, `__init__` skips the assignment
of `self.net` (lines 39-40), so every subsequent call to `test` or
`predict` fails with an `AttributeError` (at `self.net.eval()`), and every
call to `train` with at least one epoch fails likewise at its first epoch
(`self.net.train()`, line 67) — though `train` with `max_epoch = 0` returns
without touching `self.net`.  `self.net` is assigned exactly when `devices`
is nonempty, wrapped in `DataParallel` exactly when it has more than one
element. -/
theorem net_unassigned_behavior (pi cov : ℚ) (name dir : String)
    (fs : List String) (devices : List Nat) (σ : ℚ → ℚ)
    (net : List ℚ → List (List ℚ) × List (List (List ℚ)))
    (batches : List TestBatch) (img : List ℚ) (g writer : Bool)
    (interval maxEpoch : Nat) (f : Nat → ℚ) :
    ((detectorInit pi cov name dir devices fs).netAssigned = true ↔ devices ≠ [])
    ∧ ((detectorInit pi cov name dir devices fs).dataParallel = true
        ↔ 1 < devices.length)
    ∧ testMethod (detectorInit pi cov name dir [] fs) σ net batches
        = .error .attributeError
    ∧ predictMethod (detectorInit pi cov name dir [] fs) σ net img g
        = .error .attributeError
    ∧ (0 < maxEpoch →
        (trainMethod (detectorInit pi cov name dir [] fs) writer interval
          maxEpoch f).err = some .attributeError)
    ∧ (trainMethod (detectorInit pi cov name dir [] fs) writer interval 0 f).err
        = none := by
  have hno : (detectorInit pi cov name dir [] fs).netAssigned = false := by
    rw [detectorInit_netAssigned]
    rfl
  refine ⟨?_, ?_, ?_, ?_, ?_, ?_⟩
  · rw [detectorInit_netAssigned]
    simp [List.length_eq_zero]
  · rw [detectorInit_dataParallel]
    simp
  · simp [testMethod, getNet, hno]
  · simp [predictMethod, getNet, hno]
  · intro hpos
    obtain ⟨m, rfl⟩ : ∃ m, maxEpoch = m + 1 :=
      ⟨maxEpoch - 1, (Nat.succ_pred_eq_of_pos hpos).symm⟩
    unfold trainMethod trainRun
    rw [hno, List.range_succ_eq_map, List.foldl_cons]
    have hstep : epochStep false writer interval f ⟨none, 1000, none, []⟩ 0
        = ⟨some .attributeError, 1000, none, []⟩ := by
      simp [epochStep]
    rw [hstep, foldl_epochStep_frozen false writer interval f
      ((List.range m).map Nat.succ) ⟨some .attributeError, 1000, none, []⟩ rfl]
  · rfl

/-- Witness for C10: a detector built with `devices=[]` and one training
epoch. -/
theorem net_unassigned_behavior_witness :
    (trainMethod (detectorInit (R := ℚ) 3 1 "adam" "d" [] []) true 1 1
        (fun _ => 0)).err = some .attributeError :=
  (net_unassigned_behavior 3 1 "adam" "d" [] [] id (fun _ => ([], [])) [] []
    true true 1 1 (fun _ => 0)).2.2.2.2.1 (by decide)

end Detection
